import Mathlib

/-!
Verification development for the docker-gompose orchestrator.

The Go sources are shallowly embedded as executable Lean definitions:

* pure helpers (`strings.Split`, `strings.Contains`, volume/port parsing,
  `GetImage`, `DriverFromString`) become Lean functions of the same shape;
* the container engine and the OS are external collaborators; their calls are
  abstracted into an `Engine` record of result functions, so that a single
  model covers every pattern of engine successes and failures;
* the mutable `App` maps (`Volumes`, `Containers`, `Processes`, `NetworkID`)
  become a `Store` of association lists threaded through each operation;
* the dependency coordinator's goroutine loop becomes a step function on its
  waiter list, and the two-service launch scenario (a dependency-free service
  `A` and a service `B` with `DependsOn = [A]`) becomes a small-step
  interleaving transition system.
-/

deriving instance DecidableEq for Except

namespace Gompose

/-! ### Go string helpers

`goSplit` mirrors `strings.Split` for a one-character separator: splitting any
string (the empty string included) yields at least one segment.  `goContains`
mirrors `strings.Contains`. -/

def splitChar (sep : Char) : List Char → List (List Char)
  | [] => [[]]
  | c :: rest =>
    if c = sep then
      [] :: splitChar sep rest
    else
      match splitChar sep rest with
      | [] => [[c]]
      | h :: t => (c :: h) :: t

def goSplit (sep : Char) (s : String) : List String :=
  (splitChar sep s.data).map List.asString

def strStartsWith : List Char → List Char → Bool
  | _, [] => true
  | [], _ :: _ => false
  | c :: s, p :: ps => c = p && strStartsWith s ps

def containsSub : List Char → List Char → Bool
  | [], sub => sub.isEmpty
  | c :: rest, sub => strStartsWith (c :: rest) sub || containsSub rest sub

def goContains (s sub : String) : Bool :=
  containsSub s.data sub.data

/-! ### Service configuration (Service, Driver, Status, Process) -/

structure RestartPolicy where
  condition : String
  maximumRetries : Int
deriving DecidableEq, Repr

structure Service where
  image : String
  volumes : List String
  driver : String
  command : String
  onStop : String
  ports : List String
  dependsOn : List String
  restartPolicy : RestartPolicy
  stopSignal : String
deriving DecidableEq, Repr

inductive Driver where
  | UNKNOWN_DRIVER
  | DOCKER
  | EXEC
deriving DecidableEq, Repr

inductive Status where
  | UNKNOWN_STATUS
  | RUNNING
  | STOPPED
deriving DecidableEq, Repr

structure Process where
  id : String
  driver : Driver
  status : Status
  onStop : String
  pid : Int
  stopSignal : String
deriving DecidableEq, Repr

def goToUpper (s : String) : String :=
  (s.data.map Char.toUpper).asString

def DriverFromString (str : String) : Driver :=
  if goToUpper str = "DOCKER" then .DOCKER
  else if goToUpper str = "EXEC" then .EXEC
  else .UNKNOWN_DRIVER

/-- Embeds `Service.GetImage`: the guard is `len(strings.Split(s.Image, "/")) != 0`. -/
def GetImage (s : Service) : String :=
  if (goSplit '/' s.image).length ≠ 0 then s.image
  else "docker.io/library/" ++ s.image

/-! ### Volume spec parsing (`NewVolume`, `isReadOnly`) -/

structure Volume where
  source : String
  target : String
  readOnly : Bool
deriving DecidableEq, Repr

def isReadOnly (vol : List String) : Bool :=
  if vol.length = 3 then vol.getD 2 "" = "ro" else false

def NewVolume (volumeString : String) : Except String Volume :=
  let paths := goSplit ':' volumeString
  if paths.length < 2 ∨ paths.length > 3 then
    .error ("invalid volume path: " ++ volumeString)
  else
    .ok ⟨paths.getD 0 "", paths.getD 1 "", isReadOnly paths⟩

/-! ### Port spec parsing (`NewPortBinding`, `asNatPort`, `GetPortBindings`) -/

structure Binding where
  container : String
  host : String
deriving DecidableEq, Repr

def asNatPort (binding : String) : String :=
  if goContains binding "/tcp" || goContains binding "/udp" then binding
  else binding ++ "/tcp"

def NewPortBinding (portStr : String) : Except String Binding :=
  match goSplit ':' portStr with
  | [c, h] => .ok ⟨asNatPort c, h⟩
  | _ => .error ("could not parse port string as port binding: " ++ portStr)

structure PortBinding where
  hostIP : String
  hostPort : String
deriving DecidableEq, Repr

def pmAppend (pm : List (String × List PortBinding)) (k : String) (b : PortBinding) :
    List (String × List PortBinding) :=
  match pm with
  | [] => [(k, [b])]
  | (k', bs) :: rest => if k' = k then (k', bs ++ [b]) :: rest else (k', bs) :: pmAppend rest k b

def GetPortBindings (s : Service) : Except String (List (String × List PortBinding)) :=
  go s.ports []
where
  go : List String → List (String × List PortBinding) →
      Except String (List (String × List PortBinding))
    | [], pm => .ok pm
    | port :: rest, pm =>
      match NewPortBinding port with
      | .error e => .error e
      | .ok pb => go rest (pmAppend pm pb.container ⟨"0.0.0.0", pb.host⟩)

/-! ### The runtime state store

The `App` maps become association lists.  `sfind`, `upsert` and `eraseKey`
model Go map lookup, assignment and `delete`. -/

def sfind {α : Type} (k : String) : List (String × α) → Option α
  | [] => none
  | (k', v) :: rest => if k' = k then some v else sfind k rest

def upsert {α : Type} (k : String) (v : α) : List (String × α) → List (String × α)
  | [] => [(k, v)]
  | (k', v') :: rest => if k' = k then (k, v) :: rest else (k', v') :: upsert k v rest

def eraseKey {α : Type} (k : String) : List (String × α) → List (String × α)
  | [] => []
  | (k', v) :: rest => if k' = k then eraseKey k rest else (k', v) :: eraseKey k rest

structure Store where
  volumes : List (String × String)
  networkID : String
  containers : List (String × Process)
  processes : List (String × Process)
deriving DecidableEq, Repr

/-- The `IsServiceRunning` check on the store. -/
def IsServiceRunning (st : Store) (service : String) : Bool :=
  match sfind service st.containers with
  | some s => if s.status = .RUNNING then true else
      match sfind service st.processes with
      | some p => p.status = .RUNNING
      | none => false
  | none =>
      match sfind service st.processes with
      | some p => p.status = .RUNNING
      | none => false

/-! ### The container engine and OS as external collaborators

Every engine/OS call the orchestrator makes is abstracted into a function of
this record, so one model instance fixes the outcome of each call.  `build`
models `cli.ContainerCreate` (it receives the builder but, like the real
`Build`, its outcome does not depend on `builder.err`); `buildAfterPull` is
the retried create after an image pull. -/

inductive BuildOutcome where
  | ok (id : String)
  | errNoImage
  | errOther (msg : String)
deriving DecidableEq, Repr

structure Engine where
  inspectOk : String → Bool
  netCreateId : String
  volCreateName : String → String
  build : String → BuildOutcome
  buildAfterPull : String → BuildOutcome
  pullOk : String → Bool
  netConnectOk : String → Bool
  containerStartOk : String → Bool
  execStartRes : String → Except String Int
  containerStopOk : String → Bool
  containerKillOk : String → String → Bool
  findProcessOk : Int → Bool
  onStopCmdOk : String → Bool

/-! ### The container builder (`ContainerBuilder`) -/

structure ContainerBuilder where
  err : Option String
  mounts : List (String × String × Bool)
  portBindings : List (String × List PortBinding)
  name : String
deriving DecidableEq, Repr

def NewContainerBuilder (name : String) : ContainerBuilder :=
  { err := none, mounts := [], portBindings := [], name := name }

def parseVolumes (service : Service) (volumes : List (String × String)) :
    Except String (List (String × String × Bool)) :=
  go service.volumes
where
  go : List String → Except String (List (String × String × Bool))
    | [] => .ok []
    | v :: rest =>
      match NewVolume v with
      | .error e => .error e
      | .ok vol =>
        match sfind vol.source volumes with
        | none => .error ("could not find volume source in parsed Volumes: " ++ vol.source)
        | some source =>
          match go rest with
          | .error e => .error e
          | .ok ms => .ok ((vol.target, source, vol.readOnly) :: ms)

def AddVolumes (builder : ContainerBuilder) (service : Service)
    (volumes : List (String × String)) : ContainerBuilder :=
  match parseVolumes service volumes with
  | .error e => { builder with err := some e }
  | .ok mounts => { builder with mounts := builder.mounts ++ mounts }

def AddPortBindings (builder : ContainerBuilder) (service : Service) : ContainerBuilder :=
  if builder.err.isSome then builder
  else
    match GetPortBindings service with
    | .error e => { builder with err := some e }
    | .ok binds => { builder with portBindings := binds }

/-- Embeds `ContainerBuilder.Build`: it forwards to `cli.ContainerCreate` and
does not consult `builder.err`. -/
def Build (e : Engine) (builder : ContainerBuilder) : BuildOutcome :=
  e.build builder.name

/-! ### Launch actions

`createProcess` returns a deferred zero-argument launch action; `LaunchAction`
reifies the four closures the source can return (`nilfn`, restart of a stopped
container, start of a fresh container, `cmd.Start` of an exec process). -/

inductive LaunchAction where
  | nilfn
  | containerRestart (name : String) (proc : Process)
  | containerStart (id : String)
  | execRun (name command onStop stopSignal : String)
deriving DecidableEq, Repr

/-- Runs a launch action: returns the new store, whether an engine/OS start
call was made (a "new launch"), and the action's error result. -/
def runLaunchAction (e : Engine) (st : Store) : LaunchAction → Store × Bool × Option String
  | .nilfn => (st, false, none)
  | .containerRestart name proc =>
    let p := { proc with status := Status.RUNNING }
    let c := upsert name p st.containers
    if e.containerStartOk proc.id then
      ({ st with containers := c }, true, none)
    else (st, true, some "container start failed")
  | .containerStart id =>
    if e.containerStartOk id then (st, true, none) else (st, true, some "container start failed")
  | .execRun name command onStop stopSignal =>
    match e.execStartRes command with
    | .error msg => (st, true, some ("could not start process: " ++ msg))
    | .ok pid =>
      let p : Process :=
        { id := toString pid, driver := .EXEC, status := .RUNNING,
          onStop := onStop, pid := pid, stopSignal := stopSignal }
      let ps := upsert name p st.processes
      ({ st with processes := ps }, true, none)

def createExecProcess (st : Store) (name : String) (service : Service) :
    Store × Except String LaunchAction :=
  match sfind name st.processes with
  | some _ => (st, .ok .nilfn)
  | none => (st, .ok (.execRun name service.command service.onStop service.stopSignal))

def createNewContainer (e : Engine) (st : Store) (name : String) (service : Service) :
    Store × Except String LaunchAction :=
  let builder := AddPortBindings
    (AddVolumes (NewContainerBuilder name) service st.volumes) service
  let built : Except String String :=
    match Build e builder with
    | .errOther msg => .error msg
    | .errNoImage =>
      if e.pullOk (GetImage service) then
        match e.buildAfterPull builder.name with
        | .ok id => .ok id
        | .errNoImage => .error "No such image"
        | .errOther msg => .error msg
      else .error "image pull failed"
    | .ok id => .ok id
  match built with
  | .error msg => (st, .error msg)
  | .ok id =>
    -- Containers[name] is recorded with status RUNNING before NetworkConnect
    -- and before the launch action is ever invoked.
    let p : Process :=
      { id := id, driver := .DOCKER, status := .RUNNING,
        onStop := "", pid := 0, stopSignal := service.stopSignal }
    let c := upsert name p st.containers
    let st' := { st with containers := c }
    if e.netConnectOk id then (st', .ok (.containerStart id))
    else (st', .error "network connect failed")

def createContainer (e : Engine) (st : Store) (name : String) (service : Service) :
    Store × Except String LaunchAction :=
  match sfind name st.containers with
  | some proc =>
    if proc.status ≠ .STOPPED then (st, .ok .nilfn)
    else (st, .ok (.containerRestart name proc))
  | none => createNewContainer e st name service

def createProcess (e : Engine) (st : Store) (name : String) (service : Service) :
    Store × Except String LaunchAction :=
  if DriverFromString service.driver = .EXEC then createExecProcess st name service
  else createContainer e st name service

/-! ### The launch orchestrator (`createProcesses` and `start`)

The loop is modelled sequentially: each dispatched task is assumed to run its
`invokeStart` to completion (dependency waits resolved), which is the premise
of every barrier-accounting claim.  `dones` counts `wg.Done` calls, `launches`
counts engine/OS start invocations; `wg.Add(len(services))` contributes
`services.length` increments up front.  A `createProcess` error performs one
`wg.Done` and aborts the loop, exactly as the early `return err` does. -/

structure CPResult where
  store : Store
  dones : Nat
  launches : Nat
  err : Option String
deriving Repr

def createProcesses (e : Engine) : List (String × Service) → Store → CPResult
  | [], st => { store := st, dones := 0, launches := 0, err := none }
  | (name, service) :: rest, st =>
    match createProcess e st name service with
    | (st', .error msg) => { store := st', dones := 1, launches := 0, err := some msg }
    | (st', .ok act) =>
      let (st'', launched, _launchErr) := runLaunchAction e st' act
      let r := createProcesses e rest st''
      { store := r.store, dones := 1 + r.dones,
        launches := (if launched then 1 else 0) + r.launches, err := r.err }

def wgAdds (services : List (String × Service)) : Nat := services.length

def createNetworks (e : Engine) (st : Store) : Store × Option String :=
  if st.networkID ≠ "" ∧ e.inspectOk st.networkID then (st, none)
  else ({ st with networkID := e.netCreateId }, none)

def createDockerVolume (e : Engine) (st : Store) (vol : Volume) : Store :=
  match sfind vol.source st.volumes with
  | some _ => st
  | none => { st with volumes := upsert vol.source (e.volCreateName vol.source) st.volumes }

def createServiceVolumesLoop (e : Engine) : List String → Store → Store × Option String
  | [], st => (st, none)
  | v :: rest, st =>
    match NewVolume v with
    | .error msg => (st, some msg)
    | .ok vol => createServiceVolumesLoop e rest (createDockerVolume e st vol)

def createServiceVolumes (e : Engine) (st : Store) (service : Service) :
    Store × Option String :=
  createServiceVolumesLoop e service.volumes st

def registerVolumes (e : Engine) : List (String × Service) → Store → Store × Option String
  | [], st => (st, none)
  | (_, service) :: rest, st =>
    match createServiceVolumes e st service with
    | (st', some msg) => (st', some msg)
    | (st', none) => registerVolumes e rest st'

structure StartResult where
  store : Store
  dones : Nat
  launches : Nat
  err : Option String
deriving Repr

/-- Embeds `start`: all of `HandleErrors`' arguments are evaluated, in order,
before `ReturnError` picks the first non-nil error, so `createProcesses` runs
(and launches services) even when `registerVolumes` already failed. -/
def start (e : Engine) (services : List (String × Service)) (st : Store) : StartResult :=
  let (st1, netErr) := createNetworks e st
  let (st2, volErr) := registerVolumes e services st1
  let r := createProcesses e services st2
  { store := r.store, dones := r.dones, launches := r.launches,
    err :=
      match netErr with
      | some msg => some msg
      | none =>
        match volErr with
        | some msg => some msg
        | none => r.err }

/-! ### Teardown (`stopContainer`, `stopProcesses`, `clean`) -/

def stopContainerInStore (st : Store) (name : String) (proc : Process) : Store :=
  let p := { proc with status := Status.STOPPED }
  { st with containers := upsert name p st.containers }

/-- Embeds `stopContainer`: default engine stop when no stop-signal override is
configured; otherwise the configured signal with a SIGKILL fallback.  The store
entry is rewritten (via `stopContainerInStore`) only on the success paths. -/
def stopContainer (e : Engine) (st : Store) (name : String) (proc : Process) :
    Store × Option String :=
  if proc.stopSignal = "" then
    if e.containerStopOk proc.id then (stopContainerInStore st name proc, none)
    else (st, some "container stop failed")
  else
    if e.containerKillOk proc.id proc.stopSignal then (stopContainerInStore st name proc, none)
    else if e.containerKillOk proc.id "SIGKILL" then (stopContainerInStore st name proc, none)
    else (st, some "container kill failed")

/-- Modelled from the claim's wording (the spec side of C10's refinement): the
stop mechanism succeeds when the default engine stop succeeds (no stop-signal
override configured), or when the configured signal — or its SIGKILL
fallback — succeeds. -/
def stopMechanismOk (e : Engine) (proc : Process) : Bool :=
  if proc.stopSignal = "" then e.containerStopOk proc.id
  else e.containerKillOk proc.id proc.stopSignal || e.containerKillOk proc.id "SIGKILL"

def stopProcessesLoop (e : Engine) : List (String × Process) → Store → Store
  | [], st => st
  | (name, proc) :: rest, st =>
    let st1 :=
      if e.findProcessOk proc.pid then { st with processes := eraseKey name st.processes }
      else st
    let st2 :=
      if proc.onStop ≠ "" then
        if e.onStopCmdOk proc.onStop then { st1 with processes := eraseKey name st1.processes }
        else st1
      else st1
    stopProcessesLoop e rest st2

def stopProcesses (e : Engine) (st : Store) : Store :=
  stopProcessesLoop e st.processes st

/-- Removal attempts made by `clean` against the engine. -/
inductive REvent where
  | rmC (id : String)
  | rmNet (id : String)
  | rmVol (id : String)
deriving DecidableEq, Repr

def cleanContainersLoop (e : Engine) : List (String × Process) → Store → Store × List REvent
  | [], st => (st, [])
  | (name, proc) :: rest, st =>
    -- stopContainer's error and ContainerRemove's error are logged, not raised;
    -- the entry is deleted unconditionally.
    let st1 := (stopContainer e st name proc).1
    let st2 := { st1 with containers := eraseKey name st1.containers }
    let (st3, evs) := cleanContainersLoop e rest st2
    (st3, .rmC proc.id :: evs)

def cleanVolumesLoop : List (String × String) → Store → Store × List REvent
  | [], st => (st, [])
  | (name, id) :: rest, st =>
    let st1 := { st with volumes := eraseKey name st.volumes }
    let (st2, evs) := cleanVolumesLoop rest st1
    (st2, .rmVol id :: evs)

/-- Embeds `clean`: stop processes, then remove every container, the network
(if one is recorded), and every volume, clearing each entry regardless of the
engine call's outcome. -/
def clean (e : Engine) (st : Store) : Store × List REvent :=
  let st0 := stopProcesses e st
  let (st1, cevs) := cleanContainersLoop e st0.containers st0
  let (st2, nevs) :=
    if st1.networkID ≠ "" then
      ({ st1 with networkID := "" }, [REvent.rmNet st1.networkID])
    else (st1, ([] : List REvent))
  let (st3, vevs) := cleanVolumesLoop st2.volumes st2
  (st3, cevs ++ nevs ++ vevs)

/-! ### The dependency coordinator (`newDepedencyHandlers`)

The goroutine's event loop owns a list of registered `WaitRequest`s and
serializes two message kinds.  On a `done` notification it sends one signal to
each currently registered matching handle — and leaves the list as it is: the
loop body contains no removal. -/

structure WaitRequest where
  service : String
  channelId : Nat
deriving DecidableEq, Repr

inductive CoordEvent where
  | register (d : WaitRequest)
  | done (service : String)
deriving DecidableEq, Repr

/-- Channels signaled while the loop handles a `done service` event, in list
order: one `true` is sent on `d.channel` for every registered `d` whose
service name matches. -/
def signalsFor (service : String) : List WaitRequest → List Nat
  | [] => []
  | d :: rest =>
    if d.service = service then d.channelId :: signalsFor service rest
    else signalsFor service rest

/-- One iteration of the coordinator loop: the new waiter list, and the
channels signaled during the iteration. -/
def coordStep (dependants : List WaitRequest) : CoordEvent → List WaitRequest × List Nat
  | .register d => (dependants ++ [d], [])
  | .done service => (dependants, signalsFor service dependants)


/-! ### Persistence (`Save` / `createAppFromLockFile`)

`json.Marshal` serializes the exported fields of `App` (`Volumes`,
`NetworkID`, `Containers`, `Processes`) and of `Process` (`ID`, `Driver`,
`Status`, `OnStop`, `PID`, `StopSignal`; the embedded `Driver`/`Status`
int64 enums are keyed by their type names).  The byte stream is modelled by a
JSON value tree, and the lock file by an `Option JVal` cell: `Save` overwrites
it wholesale, the loader treats an absent file as a fresh environment and a
present one as input to `json.Unmarshal`. -/

inductive JVal where
  | str (s : String)
  | num (n : Int)
  | obj (fields : List (String × JVal))

def jLookup (k : String) : List (String × JVal) → Option JVal
  | [] => none
  | (k', v) :: rest => if k' = k then some v else jLookup k rest

def Driver.toInt : Driver → Int
  | .UNKNOWN_DRIVER => 0
  | .DOCKER => 1
  | .EXEC => 2

def Status.toInt : Status → Int
  | .UNKNOWN_STATUS => 0
  | .RUNNING => 1
  | .STOPPED => 2

def Driver.ofInt : Int → Option Driver
  | 0 => some .UNKNOWN_DRIVER
  | 1 => some .DOCKER
  | 2 => some .EXEC
  | _ => none

def Status.ofInt : Int → Option Status
  | 0 => some .UNKNOWN_STATUS
  | 1 => some .RUNNING
  | 2 => some .STOPPED
  | _ => none

def encodeProcess (p : Process) : JVal :=
  .obj [("ID", .str p.id), ("Driver", .num p.driver.toInt), ("Status", .num p.status.toInt),
        ("OnStop", .str p.onStop), ("PID", .num p.pid), ("StopSignal", .str p.stopSignal)]

def fieldStr (fields : List (String × JVal)) (k : String) : Option String :=
  match jLookup k fields with
  | none => some ""
  | some (.str s) => some s
  | some _ => none

def fieldNum (fields : List (String × JVal)) (k : String) : Option Int :=
  match jLookup k fields with
  | none => some 0
  | some (.num n) => some n
  | some _ => none

def decodeProcess : JVal → Option Process
  | .obj fields => do
    let id ← fieldStr fields "ID"
    let dn ← fieldNum fields "Driver"
    let driver ← Driver.ofInt dn
    let sn ← fieldNum fields "Status"
    let status ← Status.ofInt sn
    let onStop ← fieldStr fields "OnStop"
    let pid ← fieldNum fields "PID"
    let stopSignal ← fieldStr fields "StopSignal"
    some { id := id, driver := driver, status := status,
           onStop := onStop, pid := pid, stopSignal := stopSignal }
  | _ => none

def encodeStrMap (m : List (String × String)) : JVal :=
  .obj (m.map (fun kv => (kv.1, JVal.str kv.2)))

def decodeStrEntries : List (String × JVal) → Option (List (String × String))
  | [] => some []
  | (k, .str v) :: rest => do
    let tail ← decodeStrEntries rest
    some ((k, v) :: tail)
  | _ => none

def decodeStrMap : JVal → Option (List (String × String))
  | .obj fields => decodeStrEntries fields
  | _ => none

def encodeProcMap (m : List (String × Process)) : JVal :=
  .obj (m.map (fun kv => (kv.1, encodeProcess kv.2)))

def decodeProcEntries : List (String × JVal) → Option (List (String × Process))
  | [] => some []
  | (k, v) :: rest => do
    let p ← decodeProcess v
    let tail ← decodeProcEntries rest
    some ((k, p) :: tail)

def decodeProcMap : JVal → Option (List (String × Process))
  | .obj fields => decodeProcEntries fields
  | _ => none

def encodeApp (st : Store) : JVal :=
  .obj [("Volumes", encodeStrMap st.volumes), ("NetworkID", .str st.networkID),
        ("Containers", encodeProcMap st.containers), ("Processes", encodeProcMap st.processes)]

def jField (fields : List (String × JVal)) (k : String) : JVal :=
  match jLookup k fields with
  | none => JVal.obj []
  | some v => v

def decodeApp : JVal → Option Store
  | .obj fields => do
    let volumes ← decodeStrMap (jField fields "Volumes")
    let networkID ← fieldStr fields "NetworkID"
    let containers ← decodeProcMap (jField fields "Containers")
    let processes ← decodeProcMap (jField fields "Processes")
    some { volumes := volumes, networkID := networkID,
           containers := containers, processes := processes }
  | _ => none

/-- Embeds `Save`: marshal the app state and overwrite `.gompose.lock`. -/
def Save (st : Store) (_lockFile : Option JVal) : Option JVal :=
  some (encodeApp st)

/-- Embeds `createAppFromLockFile`: an absent lock file yields a fresh empty
environment; a present one is unmarshalled (`none` models an unmarshal
error). -/
def createAppFromLockFile (lockFile : Option JVal) : Option Store :=
  match lockFile with
  | none => some { volumes := [], networkID := "", containers := [], processes := [] }
  | some j => decodeApp j

/-! ### The two-service launch scenario as a transition system

Services `A` (no dependencies) and `B` (`DependsOn = [A]`), both fresh in the
store.  The main goroutine runs `createProcesses`; `B`'s dispatched task runs
`waitForDependencies` then `invokeStart`.  Go map iteration order is
arbitrary, so the system is parametrized by which service the loop meets
first, and by `A`'s driver (a fresh container service is recorded RUNNING in
the store already at `createProcess` time, while an exec service is recorded
RUNNING only inside its launch action).  Channel rendezvous with the
coordinator (always ready to receive) are collapsed into atomic steps, the
coordinator's handling included.  `B`'s own store record is read by nobody in
this scenario and is not tracked. -/

inductive Drv where
  | docker
  | execp
deriving DecidableEq, Repr

inductive MainPC where
  | m0
  | m1
  | m2
  | m3
  | m4
  | mEnd
deriving DecidableEq, Repr

inductive TaskPC where
  | t0
  | t1
  | t2
  | t3
  | t4
  | tEnd
deriving DecidableEq, Repr

structure LState where
  bFirst : Bool
  drvA : Drv
  mpc : MainPC
  bpc : TaskPC
  bSpawned : Bool
  aRun : Bool
  doneA : Bool
  doneB : Bool
  bRegistered : Bool
  startedA : Bool
  startedB : Bool
deriving DecidableEq, Repr

/-- Marks `A` RUNNING in the store, as `createProcess` does for a fresh
container service. -/
def createA (s : LState) : LState :=
  if s.drvA = .docker then { s with aRun := true } else s

/-- The first statement of `invokeStart(startA, "A")`: the send on
`serviceDone`, fused with the coordinator's handling of it (signal the
registered waiter for `"A"`, waking `B` if it is blocked in `Wait`). -/
def notifyDoneA (s : LState) : LState :=
  { s with doneA := true, bpc := if s.bpc = .t2 then .t3 else s.bpc }

/-- Runs `A`'s launch action; an exec launch records `A` RUNNING in the store. -/
def startActionA (s : LState) : LState :=
  let s' := { s with startedA := true }
  if s.drvA = .execp then { s' with aRun := true } else s'

def mstep (s : LState) : LState :=
  if s.bFirst then
    match s.mpc with
    | .m0 => { s with mpc := .m1 }                       -- createProcess(B)
    | .m1 => { s with bSpawned := true, mpc := .m2 }     -- go func() for B
    | .m2 => { (createA s) with mpc := .m3 }             -- createProcess(A)
    | .m3 => { (notifyDoneA s) with mpc := .m4 }         -- serviceDone <- "A"
    | .m4 => { (startActionA s) with mpc := .mEnd }      -- startA()
    | .mEnd => s
  else
    match s.mpc with
    | .m0 => { (createA s) with mpc := .m1 }             -- createProcess(A)
    | .m1 => { (notifyDoneA s) with mpc := .m2 }         -- serviceDone <- "A"
    | .m2 => { (startActionA s) with mpc := .m3 }        -- startA()
    | .m3 => { s with mpc := .m4 }                       -- createProcess(B)
    | .m4 => { s with bSpawned := true, mpc := .mEnd }   -- go func() for B
    | .mEnd => s

def bstep (s : LState) : LState :=
  if ¬ s.bSpawned then s
  else
    match s.bpc with
    | .t0 => if s.aRun then { s with bpc := .t3 } else { s with bpc := .t1 }
                                                         -- IsServiceRunning("A")
    | .t1 => { s with bRegistered := true, bpc := .t2 }  -- AddDependency
    | .t2 => s                                           -- blocked in Wait()
    | .t3 => { s with doneB := true, bpc := .t4 }        -- serviceDone <- "B"
    | .t4 => { s with startedB := true, bpc := .tEnd }   -- startB()
    | .tEnd => s

inductive Sched where
  | m
  | b
deriving DecidableEq, Repr

def lstep (s : LState) : Sched → LState
  | .m => mstep s
  | .b => bstep s

def lrun (s : LState) : List Sched → LState
  | [] => s
  | c :: rest => lrun (lstep s c) rest

def linit (bFirst : Bool) (drvA : Drv) : LState :=
  { bFirst := bFirst, drvA := drvA, mpc := .m0, bpc := .t0, bSpawned := false,
    aRun := false, doneA := false, doneB := false, bRegistered := false,
    startedA := false, startedB := false }

/-! ### The invariant of the launch scenario, and its exhaustive check

`invB` is the inductive invariant; `allStepsOk` checks, by evaluation over the
whole (finite) state space, that it is preserved by every `m` and `b` step. -/

def isM4orEnd : MainPC → Bool
  | .m4 => true
  | .mEnd => true
  | _ => false

def isM2plus : MainPC → Bool
  | .m2 => true
  | .m3 => true
  | .m4 => true
  | .mEnd => true
  | _ => false

def isExecDrv : Drv → Bool
  | .execp => true
  | .docker => false

def isTEnd : TaskPC → Bool
  | .tEnd => true
  | _ => false

def isT3plus : TaskPC → Bool
  | .t3 => true
  | .t4 => true
  | .tEnd => true
  | _ => false

def isT01 : TaskPC → Bool
  | .t0 => true
  | .t1 => true
  | _ => false

/-- Inductive invariant of the two-service launch system: `doneA` is set once
the main task is past its notification point; an exec-driver `A` is recorded
running only after `doneA`; `B` past its dependency check implies, when it
registered a wait or when `A` is exec-driver, that `doneA` was observed; and
`B` cannot have registered before reaching its waiting site. -/
def invB (s : LState) : Bool :=
  (!(s.bFirst && isM4orEnd s.mpc) || s.doneA) &&
  (!(!s.bFirst && isM2plus s.mpc) || s.doneA) &&
  (!(isExecDrv s.drvA && s.aRun) || s.doneA) &&
  (!s.startedB || isTEnd s.bpc) &&
  (!(isT3plus s.bpc && s.bRegistered) || s.doneA) &&
  (!(isT3plus s.bpc && isExecDrv s.drvA) || s.doneA) &&
  (!(isT01 s.bpc) || !s.bRegistered)

def stepOkB (s : LState) : Bool :=
  !(invB s) || (invB (lstep s .m) && invB (lstep s .b))

def allB : List Bool := [false, true]

def allDrv : List Drv := [.docker, .execp]

def allM : List MainPC := [.m0, .m1, .m2, .m3, .m4, .mEnd]

def allT : List TaskPC := [.t0, .t1, .t2, .t3, .t4, .tEnd]

def allStepsOk : Bool :=
  allB.all fun bF => allDrv.all fun dA => allM.all fun mpc => allT.all fun bpc =>
  allB.all fun sp => allB.all fun aR => allB.all fun dnA => allB.all fun dnB =>
  allB.all fun reg => allB.all fun stA => allB.all fun stB =>
  stepOkB ⟨bF, dA, mpc, bpc, sp, aR, dnA, dnB, reg, stA, stB⟩

/-! ### Concrete instances used by witnesses and counterexamples -/

def engineAllOk : Engine :=
  { inspectOk := fun _ => true
    netCreateId := "net-1"
    volCreateName := fun s => "vol-" ++ s
    build := fun n => .ok ("cid-" ++ n)
    buildAfterPull := fun n => .ok ("cid-" ++ n)
    pullOk := fun _ => true
    netConnectOk := fun _ => true
    containerStartOk := fun _ => true
    execStartRes := fun _ => .ok 41
    containerStopOk := fun _ => true
    containerKillOk := fun _ _ => true
    findProcessOk := fun _ => true
    onStopCmdOk := fun _ => true }

def emptyStore : Store :=
  { volumes := [], networkID := "", containers := [], processes := [] }

def svcPlain : Service :=
  { image := "postgres", volumes := [], driver := "", command := "", onStop := "",
    ports := [], dependsOn := [], restartPolicy := ⟨"", 0⟩, stopSignal := "" }

/-- A service whose port spec string is malformed (one segment). -/
def svcBadPort : Service := { svcPlain with ports := ["bad"] }

/-- A service whose volume spec string is malformed (one segment). -/
def svcBadVol : Service := { svcPlain with volumes := ["/data"] }

/-- An engine on which `ContainerCreate` fails for the service named `"bad"`. -/
def eBoom : Engine :=
  { engineAllOk with
    build := fun n => if n = "bad" then .errOther "boom" else .ok ("cid-" ++ n) }

/-- An engine on which every container/process start call fails (launch
failures), while `createProcess` itself always succeeds. -/
def engineFailStart : Engine :=
  { engineAllOk with
    containerStartOk := fun _ => false
    execStartRes := fun _ => .error "spawn failed" }

/-- Engines on which `ContainerCreate` and `NetworkConnect` always succeed, so
the launch phase never produces a `createProcess` error. -/
def goodBuildEngine (e : Engine) : Prop :=
  (∀ n, ∃ id, e.build n = .ok id) ∧ (∀ id, e.netConnectOk id = true)

/-- Bool form of "this volume spec, when it parses, names a source already in
the Volumes map". -/
def volRegistered (st : Store) (v : String) : Bool :=
  match NewVolume v with
  | .ok vol => (sfind vol.source st.volumes).isSome
  | .error _ => true

/-- Bool form of "this map has a record for `name` with status RUNNING". -/
def recordRunning (m : List (String × Process)) (name : String) : Bool :=
  match sfind name m with
  | some q => q.status = .RUNNING
  | none => false

/-- An engine on which every teardown-related call fails. -/
def engineAllFail : Engine :=
  { engineAllOk with
    containerStopOk := fun _ => false
    containerKillOk := fun _ _ => false
    findProcessOk := fun _ => false
    onStopCmdOk := fun _ => false }

/-- All-RUNNING store used by the idempotence witness. -/
def allRunningStore : Store :=
  { volumes := [("/data", "vol-1")], networkID := "net-1",
    containers := [("db", ⟨"cid-db", .DOCKER, .RUNNING, "", 0, ""⟩)],
    processes := [("worker", ⟨"7", .EXEC, .RUNNING, "", 7, ""⟩)] }

def svcDb : Service := { svcPlain with driver := "docker", volumes := ["/data:/var/lib/pg"] }

def svcWorker : Service := { svcPlain with driver := "exec", command := "worker" }

/-! ### Shared store lemmas -/

theorem sfind_upsert {α : Type} (k : String) (v : α) (l : List (String × α)) :
    sfind k (upsert k v l) = some v := by
  induction l with
  | nil => simp [upsert, sfind]
  | cons kv rest ih =>
    obtain ⟨k', v'⟩ := kv
    by_cases h : k' = k
    · simp [upsert, h, sfind]
    · simp [upsert, h, sfind, ih]

theorem splitChar_ne_nil (sep : Char) (s : List Char) : splitChar sep s ≠ [] := by
  induction s with
  | nil => simp [splitChar]
  | cons c rest ih =>
    simp only [splitChar]
    split
    · simp
    · split <;> simp

theorem goSplit_length_pos (sep : Char) (s : String) : 0 < (goSplit sep s).length := by
  unfold goSplit
  rw [List.length_map]
  exact List.length_pos.mpr (splitChar_ne_nil sep s.data)

/-! ## C9 -/

/-- C9: `GetImage` returns the `Image` field unchanged for every service; the
`docker.io/library/` branch is unreachable because splitting any string on
`"/"` yields at least one element, so the guard
`len(strings.Split(s.Image, "/")) != 0` always holds. -/
theorem c9_getImage_always_unchanged (svc : Service) :
    GetImage svc = svc.image ∧ 0 < (goSplit '/' svc.image).length := by
  refine ⟨?_, goSplit_length_pos _ _⟩
  unfold GetImage
  rw [if_pos]
  exact Nat.pos_iff_ne_zero.mp (goSplit_length_pos '/' svc.image)

/-! ## C4 -/

/-- C4 counterexample: on the two-segment port spec `"8080:80"` the parser
returns container side `"8080/tcp"` (first segment, protocol-normalized) and
host side `"80"` (second segment) — not, as the claim states, host `"8080"`
and container `"80/tcp"`. -/
theorem c4_counterexample :
    NewPortBinding "8080:80" = .ok ⟨"8080/tcp", "80"⟩ ∧
    NewPortBinding "8080:80" ≠ .ok ⟨asNatPort "80", "8080"⟩ := by
  constructor
  · decide
  · decide

/-- C4 amended: for every two-segment port spec the *container* side is the
first segment (with `/tcp` appended when it carries no protocol suffix) and
the *host* side is the second segment; `"5432:5432"` yields container
`"5432/tcp"` bound to host `"5432"`; any other segment count is rejected. -/
theorem c4_amended :
    (∀ s c h, goSplit ':' s = [c, h] → NewPortBinding s = .ok ⟨asNatPort c, h⟩) ∧
    (∀ c, goContains c "/tcp" = false → goContains c "/udp" = false →
      asNatPort c = c ++ "/tcp") ∧
    (∀ s, (goSplit ':' s).length ≠ 2 →
      NewPortBinding s = .error ("could not parse port string as port binding: " ++ s)) ∧
    NewPortBinding "5432:5432" = .ok ⟨"5432/tcp", "5432"⟩ := by
  refine ⟨?_, ?_, ?_, by decide⟩
  · intro s c h hs
    unfold NewPortBinding
    rw [hs]
  · intro c h1 h2
    unfold asNatPort
    rw [h1, h2]
    simp
  · intro s hs
    unfold NewPortBinding
    cases hl : goSplit ':' s with
    | nil => rfl
    | cons a t =>
      cases t with
      | nil => rfl
      | cons b t2 =>
        cases t2 with
        | nil =>
          exact absurd (by simp [hl] : (goSplit ':' s).length = 2) hs
        | cons c' t3 => rfl

/-- C4 witness: instantiates the amended theorem at `"9001:9002"` (normal
two-segment spec), at a suffix-free container port, and at the one-segment
spec `"80"`. -/
theorem c4_witness :
    NewPortBinding "9001:9002" = .ok ⟨asNatPort "9001", "9002"⟩ ∧
    asNatPort "9001" = "9001" ++ "/tcp" ∧
    NewPortBinding "80" = .error ("could not parse port string as port binding: " ++ "80") :=
  ⟨c4_amended.1 "9001:9002" "9001" "9002" (by decide),
   c4_amended.2.1 "9001" (by decide) (by decide),
   c4_amended.2.2.1 "80" (by decide)⟩

/-! ## C2 -/

/-- C2 counterexample: with the single handle `("A", channel 0)` registered,
processing `notify_ready("A")` signals channel 0 — yet the handle is still in
the coordinator's waiter list afterwards, so a signaled handle remains
tracked, contradicting the claim. -/
theorem c2_counterexample :
    0 ∈ (coordStep [⟨"A", 0⟩] (.done "A")).2 ∧
    (⟨"A", 0⟩ : WaitRequest) ∈ (coordStep [⟨"A", 0⟩] (.done "A")).1 := by
  constructor
  · decide
  · decide

theorem signalsFor_count_zero (s : String) (c : Nat) (l : List WaitRequest)
    (h : c ∉ l.map WaitRequest.channelId) : (signalsFor s l).count c = 0 := by
  induction l with
  | nil => rfl
  | cons d rest ih =>
    simp only [List.map_cons, List.mem_cons] at h
    push_neg at h
    obtain ⟨h1, h2⟩ := h
    simp only [signalsFor]
    split
    · simp [List.count_cons, h1, ih h2]
    · exact ih h2

theorem signalsFor_count_one (s : String) (d : WaitRequest) (l : List WaitRequest)
    (hn : (l.map WaitRequest.channelId).Nodup) (hd : d ∈ l) (hs : d.service = s) :
    (signalsFor s l).count d.channelId = 1 := by
  induction l with
  | nil => cases hd
  | cons e rest ih =>
    simp only [List.map_cons, List.nodup_cons] at hn
    obtain ⟨hne, hnr⟩ := hn
    rcases List.mem_cons.mp hd with he | hr
    · subst he
      simp only [signalsFor, hs, if_pos rfl]
      have : (signalsFor s rest).count d.channelId = 0 :=
        signalsFor_count_zero s d.channelId rest hne
      simp [List.count_cons, this]
    · have hid : e.channelId ≠ d.channelId := by
        intro hEq
        exact hne (hEq ▸ List.mem_map_of_mem WaitRequest.channelId hr)
      simp only [signalsFor]
      split
      · simp [List.count_cons, ih hnr hr, hid.symm]
      · exact ih hnr hr

/-- C2 amended: a `notify_ready(s)` event signals each wait handle currently
registered for `s` exactly once per event — but the handles are *not*
discarded: the waiter list is returned unchanged, the signaled handle is
still registered afterwards, and a second `notify_ready(s)` signals it exactly
once more (reuse, not consumption). -/
theorem c2_amended (deps : List WaitRequest) (s : String) (d : WaitRequest)
    (hn : (deps.map WaitRequest.channelId).Nodup) (hd : d ∈ deps) (hs : d.service = s) :
    (coordStep deps (.done s)).1 = deps ∧
    (coordStep deps (.done s)).2.count d.channelId = 1 ∧
    d ∈ (coordStep (coordStep deps (.done s)).1 (.done s)).1 ∧
    (coordStep (coordStep deps (.done s)).1 (.done s)).2.count d.channelId = 1 := by
  refine ⟨rfl, signalsFor_count_one s d deps hn hd hs, hd,
    signalsFor_count_one s d deps hn hd hs⟩

/-- C2 witness: the amended theorem applied to the concrete waiter list
`[("A", 0), ("B", 1)]` and event `notify_ready("A")`. -/
theorem c2_witness :
    (coordStep [⟨"A", 0⟩, ⟨"B", 1⟩] (.done "A")).1 = [⟨"A", 0⟩, ⟨"B", 1⟩] ∧
    (coordStep [⟨"A", 0⟩, ⟨"B", 1⟩] (.done "A")).2.count 0 = 1 ∧
    (⟨"A", 0⟩ : WaitRequest) ∈
      (coordStep (coordStep [⟨"A", 0⟩, ⟨"B", 1⟩] (.done "A")).1 (.done "A")).1 ∧
    (coordStep (coordStep [⟨"A", 0⟩, ⟨"B", 1⟩] (.done "A")).1 (.done "A")).2.count 0 = 1 :=
  c2_amended [⟨"A", 0⟩, ⟨"B", 1⟩] "A" ⟨"A", 0⟩ (by decide) (by decide) rfl

/-! ## C10 -/

/-- C10: `stopContainer` returns no error exactly when the stop mechanism
succeeded; on success the container's record is rewritten with status STOPPED,
and on failure the store is returned unchanged (the entry untouched). -/
theorem c10_stopContainer_atomic (e : Engine) (st : Store) (name : String) (proc : Process) :
    ((stopContainer e st name proc).2 = none ↔ stopMechanismOk e proc = true) ∧
    (stopMechanismOk e proc = true →
      (stopContainer e st name proc).1 = stopContainerInStore st name proc ∧
      sfind name (stopContainer e st name proc).1.containers =
        some ({ proc with status := Status.STOPPED })) ∧
    (stopMechanismOk e proc = false →
      (stopContainer e st name proc).1 = st ∧ (stopContainer e st name proc).2.isSome = true) := by
  unfold stopContainer stopMechanismOk
  by_cases hs : proc.stopSignal = ""
  · by_cases h1 : e.containerStopOk proc.id = true
    · simp [hs, h1, stopContainerInStore, sfind_upsert]
    · simp [hs, h1]
  · by_cases h1 : e.containerKillOk proc.id proc.stopSignal = true
    · simp [hs, h1, stopContainerInStore, sfind_upsert]
    · by_cases h2 : e.containerKillOk proc.id "SIGKILL" = true
      · simp [hs, h1, h2, stopContainerInStore, sfind_upsert]
      · simp [hs, h1, h2]

/-- C10 witness: a record with a configured stop signal whose kill fails but
whose SIGKILL fallback succeeds — the mechanism counts as succeeded and the
record is marked STOPPED. -/
theorem c10_witness :
    (stopContainer
        ({ engineAllOk with containerKillOk := fun _ sig => sig = "SIGKILL" })
        ({ emptyStore with containers := [("db", ⟨"cid-db", .DOCKER, .RUNNING, "", 0, "SIGTERM"⟩)] })
        "db" ⟨"cid-db", .DOCKER, .RUNNING, "", 0, "SIGTERM"⟩).1 =
      stopContainerInStore
        ({ emptyStore with containers := [("db", ⟨"cid-db", .DOCKER, .RUNNING, "", 0, "SIGTERM"⟩)] })
        "db" ⟨"cid-db", .DOCKER, .RUNNING, "", 0, "SIGTERM"⟩ ∧
    sfind "db" (stopContainer
        ({ engineAllOk with containerKillOk := fun _ sig => sig = "SIGKILL" })
        ({ emptyStore with containers := [("db", ⟨"cid-db", .DOCKER, .RUNNING, "", 0, "SIGTERM"⟩)] })
        "db" ⟨"cid-db", .DOCKER, .RUNNING, "", 0, "SIGTERM"⟩).1.containers =
      some ⟨"cid-db", .DOCKER, .STOPPED, "", 0, "SIGTERM"⟩ :=
  (c10_stopContainer_atomic _ _ "db" _).2.1 (by decide)

/-! ## C3 -/

theorem createProcesses_dones_le (e : Engine) (services : List (String × Service)) :
    ∀ st : Store, (createProcesses e services st).dones ≤ services.length := by
  induction services with
  | nil => intro st; simp [createProcesses]
  | cons sv rest ih =>
    intro st
    obtain ⟨name, svc⟩ := sv
    simp only [createProcesses]
    rcases hcp : createProcess e st name svc with ⟨st', r⟩
    cases r with
    | error msg =>
      simp only [hcp, List.length_cons]
      omega
    | ok act =>
      rcases hrl : runLaunchAction e st' act with ⟨st'', launched, lerr⟩
      simp only [hcp, hrl, List.length_cons]
      have := ih st''
      omega

theorem createProcesses_dones_of_no_err (e : Engine) (services : List (String × Service)) :
    ∀ st : Store, (createProcesses e services st).err = none →
    (createProcesses e services st).dones = services.length := by
  induction services with
  | nil => intro st _; rfl
  | cons sv rest ih =>
    intro st h
    obtain ⟨name, svc⟩ := sv
    simp only [createProcesses] at h ⊢
    rcases hcp : createProcess e st name svc with ⟨st', r⟩
    cases r with
    | error msg => simp [hcp] at h
    | ok act =>
      rcases hrl : runLaunchAction e st' act with ⟨st'', launched, lerr⟩
      simp only [hcp, hrl] at h ⊢
      rw [List.length_cons, ih st'' h]
      omega

/-- C3 counterexample: two services, `createProcess` failing on the first.
The barrier is incremented twice (`wg.Add(2)`) but decremented only once (the
single `wg.Done()` on the error path — the loop returns before the second
service is ever dispatched), so the caller's `Wait` never unblocks. -/
theorem c3_counterexample :
    wgAdds [("bad", svcPlain), ("good", svcPlain)] = 2 ∧
    (createProcesses eBoom [("bad", svcPlain), ("good", svcPlain)] emptyStore).dones = 1 ∧
    (createProcesses eBoom [("bad", svcPlain), ("good", svcPlain)] emptyStore).err.isSome
      = true := by
  refine ⟨rfl, by decide, by decide⟩

/-- C3 amended: the barrier is incremented once per declared service up front;
each dispatched launch task decrements it exactly once whether its launch
action succeeds or fails, so when `createProcess` succeeds for every service
the decrements equal the increments and `Wait` unblocks.  But when
`createProcess` fails partway through the iteration, only the already
dispatched services plus the failing one decrement (`dones ≤ N`, strictly
fewer when the error is not at the last service), and `Wait` blocks forever. -/
theorem c3_amended (e : Engine) (services : List (String × Service)) (st : Store) :
    wgAdds services = services.length ∧
    (createProcesses e services st).dones ≤ wgAdds services ∧
    ((createProcesses e services st).err = none →
      (createProcesses e services st).dones = wgAdds services) :=
  ⟨rfl, createProcesses_dones_le e services st, createProcesses_dones_of_no_err e services st⟩

/-- C3 witness: two services whose launch actions both fail (container start
and process spawn) — `createProcess` reported no error, and the barrier still
drains: decrements equal the two increments. -/
theorem c3_witness :
    (createProcesses engineFailStart [("db", svcPlain), ("worker", svcWorker)] emptyStore).dones
      = wgAdds [("db", svcPlain), ("worker", svcWorker)] :=
  (c3_amended engineFailStart [("db", svcPlain), ("worker", svcWorker)] emptyStore).2.2
    (by decide)

/-! ## C5 -/

theorem AddVolumes_name (builder : ContainerBuilder) (service : Service)
    (volumes : List (String × String)) :
    (AddVolumes builder service volumes).name = builder.name := by
  unfold AddVolumes
  split <;> rfl

theorem AddPortBindings_name (builder : ContainerBuilder) (service : Service) :
    (AddPortBindings builder service).name = builder.name := by
  unfold AddPortBindings
  split
  · rfl
  · split <;> rfl

theorem createProcess_ok_of_goodBuild (e : Engine) (hg : goodBuildEngine e)
    (st : Store) (name : String) (svc : Service) :
    ∃ st' act, createProcess e st name svc = (st', Except.ok act) := by
  obtain ⟨hb, hc⟩ := hg
  unfold createProcess
  split
  · unfold createExecProcess
    rcases h : sfind name st.processes with _ | p <;> simp [h]
  · unfold createContainer
    rcases h : sfind name st.containers with _ | p
    · simp only [h]
      unfold createNewContainer
      obtain ⟨id, hid⟩ := hb (AddPortBindings
        (AddVolumes (NewContainerBuilder name) svc st.volumes) svc).name
      simp only [Build, hid, hc]
      exact ⟨_, _, rfl⟩
    · simp only [h]
      split <;> exact ⟨_, _, rfl⟩

theorem createProcesses_no_err_of_goodBuild (e : Engine) (hg : goodBuildEngine e)
    (services : List (String × Service)) : ∀ st : Store,
    (createProcesses e services st).err = none := by
  induction services with
  | nil => intro st; rfl
  | cons sv rest ih =>
    intro st
    obtain ⟨name, svc⟩ := sv
    obtain ⟨st', act, hcp⟩ := createProcess_ok_of_goodBuild e hg st name svc
    rcases hrl : runLaunchAction e st' act with ⟨st'', launched, lerr⟩
    simp only [createProcesses, hcp, hrl]
    exact ih st''

theorem createServiceVolumesLoop_err_of_bad (e : Engine) (vols : List String) :
    ∀ st : Store, (∃ v ∈ vols, (NewVolume v).isOk = false) →
    (createServiceVolumesLoop e vols st).2.isSome = true := by
  induction vols with
  | nil => intro st h; simp at h
  | cons v rest ih =>
    intro st h
    simp only [createServiceVolumesLoop]
    rcases hv : NewVolume v with msg | vol
    · rfl
    · rcases h with ⟨w, hw, hbad⟩
      rcases List.mem_cons.mp hw with rfl | hwr
      · rw [hv] at hbad
        simp [Except.isOk, Except.toBool] at hbad
      · exact ih _ ⟨w, hwr, hbad⟩

theorem registerVolumes_err_of_bad (e : Engine) (services : List (String × Service)) :
    ∀ st : Store, (∃ p ∈ services, ∃ v ∈ (p.2 : Service).volumes, (NewVolume v).isOk = false) →
    (registerVolumes e services st).2.isSome = true := by
  induction services with
  | nil => intro st h; simp at h
  | cons sv rest ih =>
    intro st h
    obtain ⟨name, svc⟩ := sv
    simp only [registerVolumes]
    rcases hcv : createServiceVolumes e st svc with ⟨st', r⟩
    cases r with
    | some msg => simp [hcv]
    | none =>
      simp only [hcv]
      rcases h with ⟨p, hp, v, hv, hbad⟩
      rcases List.mem_cons.mp hp with rfl | hpr
      · have hbadloop := createServiceVolumesLoop_err_of_bad e svc.volumes st ⟨v, hv, hbad⟩
        rw [createServiceVolumes] at hcv
        rw [hcv] at hbadloop
        simp at hbadloop
      · exact ih st' ⟨p, hpr, v, hv, hbad⟩

theorem createNetworks_no_err (e : Engine) (st : Store) :
    (createNetworks e st).2 = none := by
  unfold createNetworks
  split <;> rfl

/-- C5 counterexample: a configuration whose only service carries the
malformed port spec `"bad"`.  `start` neither fails nor blocks the launch: it
returns no error at all and performs one launch — the parse error was stored
in `builder.err`, which `Build` never consults, and nothing else surfaces
it. -/
theorem c5_counterexample :
    (NewPortBinding "bad").isOk = false ∧
    (start engineAllOk [("web", svcBadPort)] emptyStore).err = none ∧
    (start engineAllOk [("web", svcBadPort)] emptyStore).launches = 1 := by
  refine ⟨by decide, by decide, by decide⟩

/-- C5 amended: a malformed VOLUME spec string does surface as `start`'s error
result (via `registerVolumes`), but it does not prevent launches: since all of
`HandleErrors`' arguments are evaluated, `createProcesses` still runs, and on
an engine whose create/connect calls succeed it processes every service
without error — config errors in port or volume specs never abort the launch
phase, because the builder's stored error is dropped by `Build`.  A malformed
PORT spec is never surfaced at all (see the counterexample). -/
theorem c5_amended :
    (∀ (e : Engine) (services : List (String × Service)) (st : Store),
      goodBuildEngine e → (createProcesses e services st).err = none) ∧
    (∀ (e : Engine) (services : List (String × Service)) (st : Store),
      (∃ p ∈ services, ∃ v ∈ (p.2 : Service).volumes, (NewVolume v).isOk = false) →
      (start e services st).err.isSome = true) := by
  constructor
  · intro e services st hg
    exact createProcesses_no_err_of_goodBuild e hg services st
  · intro e services st h
    unfold start
    rcases hn : createNetworks e st with ⟨st1, netErr⟩
    have hnone : netErr = none := by
      have := createNetworks_no_err e st
      rw [hn] at this
      exact this
    subst hnone
    rcases hrv : registerVolumes e services st1 with ⟨st2, volErr⟩
    have : volErr.isSome = true := by
      have := registerVolumes_err_of_bad e services st1 h
      rw [hrv] at this
      exact this
    rcases volErr with _ | msg
    · simp at this
    · simp [hn, hrv]

/-- C5 witness: the amended theorem applied to (a) a good-build engine with
the malformed-port service, and (b) a configuration with a malformed volume
spec, whose error is surfaced by `start`. -/
theorem c5_witness :
    (createProcesses engineAllOk [("web", svcBadPort)] emptyStore).err = none ∧
    (start engineAllOk [("web", svcBadVol)] emptyStore).err.isSome = true :=
  ⟨c5_amended.1 engineAllOk [("web", svcBadPort)] emptyStore
      ⟨fun n => ⟨"cid-" ++ n, rfl⟩, fun _ => rfl⟩,
   c5_amended.2 engineAllOk [("web", svcBadVol)] emptyStore (by decide)⟩

/-! ## C6 -/

theorem createServiceVolumesLoop_store_id (e : Engine) (vols : List String) :
    ∀ st : Store, (∀ v ∈ vols, volRegistered st v = true) →
    (createServiceVolumesLoop e vols st).1 = st := by
  induction vols with
  | nil => intro st _; rfl
  | cons v rest ih =>
    intro st h
    simp only [createServiceVolumesLoop]
    rcases hv : NewVolume v with msg | vol
    · rfl
    · have hreg : (sfind vol.source st.volumes).isSome = true := by
        have h0 := h v (List.mem_cons_self v rest)
        unfold volRegistered at h0
        rw [hv] at h0
        simpa using h0
      have hdv : createDockerVolume e st vol = st := by
        unfold createDockerVolume
        rcases hs : sfind vol.source st.volumes with _ | x
        · rw [hs] at hreg
          simp at hreg
        · simp [hs]
      show (createServiceVolumesLoop e rest (createDockerVolume e st vol)).1 = st
      rw [hdv]
      exact ih st (fun w hw => h w (List.mem_cons_of_mem v hw))

theorem registerVolumes_store_id (e : Engine) (services : List (String × Service)) :
    ∀ st : Store, (∀ p ∈ services, ∀ v ∈ (p.2 : Service).volumes, volRegistered st v = true) →
    (registerVolumes e services st).1 = st := by
  induction services with
  | nil => intro st _; rfl
  | cons sv rest ih =>
    intro st h
    obtain ⟨name, svc⟩ := sv
    simp only [registerVolumes]
    rcases hcv : createServiceVolumes e st svc with ⟨st', r⟩
    have hst' : st' = st := by
      have h1 := createServiceVolumesLoop_store_id e svc.volumes st
        (fun v hv => h (name, svc) (List.mem_cons_self _ _) v hv)
      rw [createServiceVolumes] at hcv
      rw [hcv] at h1
      exact h1
    subst hst'
    cases r with
    | some msg => simp
    | none =>
      simp only
      exact ih st' (fun p hp v hv => h p (List.mem_cons_of_mem _ hp) v hv)

theorem createProcesses_noop_of_running (e : Engine) (services : List (String × Service)) :
    ∀ st : Store,
    (∀ p ∈ services,
      (if DriverFromString (p.2 : Service).driver = .EXEC
        then recordRunning st.processes p.1 else recordRunning st.containers p.1) = true) →
    createProcesses e services st =
      { store := st, dones := services.length, launches := 0, err := none } := by
  induction services with
  | nil => intro st _; rfl
  | cons sv rest ih =>
    intro st h
    obtain ⟨name, svc⟩ := sv
    have hhead := h (name, svc) (List.mem_cons_self _ _)
    have hcp : createProcess e st name svc = (st, Except.ok LaunchAction.nilfn) := by
      unfold createProcess
      by_cases hd : DriverFromString svc.driver = .EXEC
      · rw [if_pos hd]
        rw [if_pos hd] at hhead
        unfold recordRunning at hhead
        unfold createExecProcess
        rcases hs : sfind name st.processes with _ | q
        · rw [hs] at hhead
          simp at hhead
        · simp [hs]
      · rw [if_neg hd]
        rw [if_neg hd] at hhead
        unfold recordRunning at hhead
        unfold createContainer
        rcases hs : sfind name st.containers with _ | q
        · rw [hs] at hhead
          simp at hhead
        · rw [hs] at hhead
          simp only [decide_eq_true_eq] at hhead
          simp [hs, hhead]
    simp only [createProcesses, hcp]
    have hrl : runLaunchAction e st LaunchAction.nilfn = (st, false, none) := rfl
    rw [hrl, ih st (fun p hp => h p (List.mem_cons_of_mem _ hp))]
    simp [Nat.add_comm]

/-- C6: starting is idempotent in the all-running state.  When the network is
recorded and inspectable, every declared volume source is already registered,
and every declared service has a RUNNING record under its driver's map, a
second `start` computes the trivial `nilfn` action for each service, performs
zero new launches, and leaves the runtime state store — Volumes, NetworkID,
Containers, Processes — exactly unchanged. -/
theorem c6_start_idempotent (e : Engine) (services : List (String × Service)) (st : Store)
    (hnet : st.networkID ≠ "")
    (hins : e.inspectOk st.networkID = true)
    (hvol : ∀ p ∈ services, ∀ v ∈ (p.2 : Service).volumes, volRegistered st v = true)
    (hrun : ∀ p ∈ services,
      (if DriverFromString (p.2 : Service).driver = .EXEC
        then recordRunning st.processes p.1 else recordRunning st.containers p.1) = true) :
    (start e services st).store = st ∧ (start e services st).launches = 0 := by
  have hcn : createNetworks e st = (st, none) := by
    unfold createNetworks
    rw [if_pos ⟨hnet, hins⟩]
  rcases hrv : registerVolumes e services st with ⟨st2, volErr⟩
  have hst2 : st2 = st := by
    have h1 := registerVolumes_store_id e services st hvol
    rw [hrv] at h1
    exact h1
  subst hst2
  have hcpn := createProcesses_noop_of_running e services st2 hrun
  unfold start
  simp [hcn, hrv, hcpn]

/-- C6 witness: a two-service registry (one container service, one exec
service), both recorded RUNNING, with the volume registered and the network
present — the second `start` changes nothing and launches nothing. -/
theorem c6_witness :
    (start engineAllOk [("db", svcDb), ("worker", svcWorker)] allRunningStore).store
      = allRunningStore ∧
    (start engineAllOk [("db", svcDb), ("worker", svcWorker)] allRunningStore).launches = 0 :=
  c6_start_idempotent engineAllOk [("db", svcDb), ("worker", svcWorker)] allRunningStore
    (by decide) (by decide) (by decide) (by decide)

/-! ## C7 -/

theorem driverOfInt_toInt (d : Driver) : Driver.ofInt d.toInt = some d := by
  cases d <;> rfl

theorem statusOfInt_toInt (s : Status) : Status.ofInt s.toInt = some s := by
  cases s <;> rfl

theorem decodeProcess_encodeProcess (p : Process) : decodeProcess (encodeProcess p) = some p := by
  obtain ⟨id, dr, stt, onStop, pid, sig⟩ := p
  cases dr <;> cases stt <;> rfl

theorem decodeStrEntries_encode (m : List (String × String)) :
    decodeStrEntries (m.map fun kv => (kv.1, JVal.str kv.2)) = some m := by
  induction m with
  | nil => rfl
  | cons kv rest ih =>
    obtain ⟨k, v⟩ := kv
    simp only [List.map_cons, decodeStrEntries, ih]
    rfl

theorem decodeStrMap_encodeStrMap (m : List (String × String)) :
    decodeStrMap (encodeStrMap m) = some m := by
  simp only [encodeStrMap, decodeStrMap]
  exact decodeStrEntries_encode m

theorem decodeProcEntries_encode (m : List (String × Process)) :
    decodeProcEntries (m.map fun kv => (kv.1, encodeProcess kv.2)) = some m := by
  induction m with
  | nil => rfl
  | cons kv rest ih =>
    obtain ⟨k, p⟩ := kv
    simp only [List.map_cons, decodeProcEntries, decodeProcess_encodeProcess, ih]
    rfl

theorem decodeProcMap_encodeProcMap (m : List (String × Process)) :
    decodeProcMap (encodeProcMap m) = some m := by
  simp only [encodeProcMap, decodeProcMap]
  exact decodeProcEntries_encode m

/-- C7: round-trip of persistence.  For every app state and every prior lock
file content, serializing with `Save` and reloading through the startup loader
reproduces the identical runtime state store: the same Volumes map, the same
NetworkID, and Containers/Processes maps with the same keys and, per key, the
same identifier, driver, status, PID, on-stop command and stop signal. -/
theorem c7_save_load_roundtrip (st : Store) (lockFile : Option JVal) :
    createAppFromLockFile (Save st lockFile) = some st := by
  show decodeApp (encodeApp st) = some st
  obtain ⟨vols, nid, cs, ps⟩ := st
  simp [encodeApp, decodeApp, jField, jLookup, fieldStr,
    decodeStrMap_encodeStrMap, decodeProcMap_encodeProcMap, encodeStrMap, encodeProcMap,
    decodeStrMap, decodeProcMap, decodeStrEntries_encode, decodeProcEntries_encode]

/-! ## C8 -/

theorem eraseKey_upsert {α : Type} (k : String) (v : α) (l : List (String × α)) :
    eraseKey k (upsert k v l) = eraseKey k l := by
  induction l with
  | nil => simp [upsert, eraseKey]
  | cons kv rest ih =>
    obtain ⟨k', v'⟩ := kv
    by_cases h : k' = k
    · subst h
      simp [upsert, eraseKey]
    · simp [upsert, eraseKey, h, ih]

theorem mem_keys_eraseKey {α : Type} (k k' : String) (l : List (String × α))
    (h : k' ∈ (eraseKey k l).map Prod.fst) : k' ∈ l.map Prod.fst ∧ k' ≠ k := by
  induction l with
  | nil => simp [eraseKey] at h
  | cons kv rest ih =>
    obtain ⟨k0, v0⟩ := kv
    by_cases hk : k0 = k
    · subst hk
      simp only [eraseKey, if_pos rfl] at h
      obtain ⟨h1, h2⟩ := ih h
      exact ⟨by simp [h1], h2⟩
    · simp only [eraseKey, if_neg hk, List.map_cons, List.mem_cons] at h
      rcases h with rfl | h
      · exact ⟨by simp, hk⟩
      · obtain ⟨h1, h2⟩ := ih h
        exact ⟨by simp [h1], h2⟩

theorem stopProcessesLoop_other (e : Engine) (l : List (String × Process)) : ∀ st : Store,
    (stopProcessesLoop e l st).containers = st.containers ∧
    (stopProcessesLoop e l st).networkID = st.networkID ∧
    (stopProcessesLoop e l st).volumes = st.volumes := by
  induction l with
  | nil => intro st; exact ⟨rfl, rfl, rfl⟩
  | cons np rest ih =>
    intro st
    obtain ⟨name, proc⟩ := np
    simp only [stopProcessesLoop]
    by_cases h1 : e.findProcessOk proc.pid = true <;>
    by_cases h2 : proc.onStop ≠ "" <;>
    by_cases h3 : e.onStopCmdOk proc.onStop = true <;>
    simp [h1, h2, h3, ih]

theorem stopContainer_fields (e : Engine) (st : Store) (name : String) (proc : Process) :
    (stopContainer e st name proc).1.volumes = st.volumes ∧
    (stopContainer e st name proc).1.networkID = st.networkID ∧
    (stopContainer e st name proc).1.processes = st.processes ∧
    eraseKey name (stopContainer e st name proc).1.containers = eraseKey name st.containers := by
  unfold stopContainer stopContainerInStore
  by_cases h1 : proc.stopSignal = "" <;>
  by_cases h2 : e.containerStopOk proc.id = true <;>
  by_cases h3 : e.containerKillOk proc.id proc.stopSignal = true <;>
  by_cases h4 : e.containerKillOk proc.id "SIGKILL" = true <;>
  simp [h1, h2, h3, h4, eraseKey_upsert]

theorem cleanContainersLoop_spec (e : Engine) (l : List (String × Process)) : ∀ st : Store,
    (∀ k, k ∈ st.containers.map Prod.fst → k ∈ l.map Prod.fst) →
    (cleanContainersLoop e l st).1.containers = [] ∧
    (cleanContainersLoop e l st).1.networkID = st.networkID ∧
    (cleanContainersLoop e l st).1.volumes = st.volumes ∧
    (cleanContainersLoop e l st).2 = l.map (fun np => REvent.rmC (np.2 : Process).id) := by
  induction l with
  | nil =>
    intro st h
    refine ⟨?_, rfl, rfl, rfl⟩
    cases hc : st.containers with
    | nil => exact hc
    | cons kv rest =>
      exfalso
      have hmem := h kv.1 (by rw [hc]; exact List.mem_map_of_mem Prod.fst (List.mem_cons_self _ _))
      simp at hmem
  | cons np rest ih =>
    intro st h
    obtain ⟨name, proc⟩ := np
    obtain ⟨hv, hn, hp, he⟩ := stopContainer_fields e st name proc
    simp only [cleanContainersLoop]
    rcases hrec : cleanContainersLoop e rest
      { (stopContainer e st name proc).1 with
        containers := eraseKey name (stopContainer e st name proc).1.containers }
      with ⟨st3, evs⟩
    have hkeys : ∀ k, k ∈ (eraseKey name (stopContainer e st name proc).1.containers).map
        Prod.fst → k ∈ rest.map Prod.fst := by
      intro k hk
      rw [he] at hk
      obtain ⟨hk1, hk2⟩ := mem_keys_eraseKey name k st.containers hk
      have := h k hk1
      simp only [List.map_cons, List.mem_cons] at this
      rcases this with rfl | hmem
      · exact absurd rfl hk2
      · exact hmem
    have hspec := ih { (stopContainer e st name proc).1 with
        containers := eraseKey name (stopContainer e st name proc).1.containers } hkeys
    rw [hrec] at hspec
    obtain ⟨s1, s2, s3, s4⟩ := hspec
    simp only [hrec]
    exact ⟨s1, s2.trans hn, s3.trans hv, congrArg (List.cons (REvent.rmC proc.id)) s4⟩

theorem cleanVolumesLoop_spec (l : List (String × String)) : ∀ st : Store,
    (∀ k, k ∈ st.volumes.map Prod.fst → k ∈ l.map Prod.fst) →
    (cleanVolumesLoop l st).1.volumes = [] ∧
    (cleanVolumesLoop l st).1.networkID = st.networkID ∧
    (cleanVolumesLoop l st).1.containers = st.containers ∧
    (cleanVolumesLoop l st).2 = l.map (fun nv => REvent.rmVol (nv.2 : String)) := by
  induction l with
  | nil =>
    intro st h
    refine ⟨?_, rfl, rfl, rfl⟩
    cases hc : st.volumes with
    | nil => exact hc
    | cons kv rest =>
      exfalso
      have hmem := h kv.1 (by rw [hc]; exact List.mem_map_of_mem Prod.fst (List.mem_cons_self _ _))
      simp at hmem
  | cons nv rest ih =>
    intro st h
    obtain ⟨name, id⟩ := nv
    simp only [cleanVolumesLoop]
    rcases hrec : cleanVolumesLoop rest { st with volumes := eraseKey name st.volumes }
      with ⟨st2, evs⟩
    have hkeys : ∀ k, k ∈ (eraseKey name st.volumes).map Prod.fst →
        k ∈ rest.map Prod.fst := by
      intro k hk
      obtain ⟨hk1, hk2⟩ := mem_keys_eraseKey name k st.volumes hk
      have := h k hk1
      simp only [List.map_cons, List.mem_cons] at this
      rcases this with rfl | hmem
      · exact absurd rfl hk2
      · exact hmem
    have hspec := ih { st with volumes := eraseKey name st.volumes } hkeys
    rw [hrec] at hspec
    obtain ⟨s1, s2, s3, s4⟩ := hspec
    simp only [hrec]
    exact ⟨s1, s2, s3, congrArg (List.cons (REvent.rmVol id)) s4⟩

/-- C8: on a store with containers, a non-empty network id and volumes,
`clean` attempts removal of every container, the network, and every volume
(whatever each engine call returns — failures are logged, never raised), and
afterwards the Containers map is empty, the NetworkID is the empty string and
the Volumes map is empty. -/
theorem c8_clean_total (e : Engine) (st : Store) (hnet : st.networkID ≠ "") :
    (clean e st).1.containers = [] ∧
    (clean e st).1.networkID = "" ∧
    (clean e st).1.volumes = [] ∧
    (∀ p ∈ st.containers, REvent.rmC (p.2 : Process).id ∈ (clean e st).2) ∧
    REvent.rmNet st.networkID ∈ (clean e st).2 ∧
    (∀ v ∈ st.volumes, REvent.rmVol (v.2 : String) ∈ (clean e st).2) := by
  have h0 := stopProcessesLoop_other e st.processes st
  have h0c : (stopProcesses e st).containers = st.containers := h0.1
  have h0n : (stopProcesses e st).networkID = st.networkID := h0.2.1
  have h0v : (stopProcesses e st).volumes = st.volumes := h0.2.2
  rcases hcc : cleanContainersLoop e (stopProcesses e st).containers (stopProcesses e st)
    with ⟨st1, cevs⟩
  have hccs := cleanContainersLoop_spec e (stopProcesses e st).containers
    (stopProcesses e st) (fun k hk => hk)
  rw [hcc] at hccs
  have hc1 : st1.containers = [] := hccs.1
  have hc2 : st1.networkID = (stopProcesses e st).networkID := hccs.2.1
  have hc3 : st1.volumes = (stopProcesses e st).volumes := hccs.2.2.1
  have hc4 : cevs =
      (stopProcesses e st).containers.map (fun np => REvent.rmC (np.2 : Process).id) :=
    hccs.2.2.2
  have hst1net : st1.networkID = st.networkID := by
    rw [hc2]
    exact h0n
  have hnet1 : st1.networkID ≠ "" := by
    rw [hst1net]
    exact hnet
  rcases hvv : cleanVolumesLoop ({ st1 with networkID := "" }).volumes
      ({ st1 with networkID := "" }) with ⟨st3, vevs⟩
  have hvvs := cleanVolumesLoop_spec ({ st1 with networkID := "" }).volumes
    ({ st1 with networkID := "" }) (fun k hk => hk)
  rw [hvv] at hvvs
  have hv1 : st3.volumes = [] := hvvs.1
  have hv2 : st3.networkID = "" := hvvs.2.1
  have hv3 : st3.containers = st1.containers := hvvs.2.2.1
  have hv4 : vevs = st1.volumes.map (fun nv => REvent.rmVol (nv.2 : String)) := hvvs.2.2.2
  have hres : clean e st =
      (st3, cevs ++ [REvent.rmNet st1.networkID] ++ vevs) := by
    unfold clean
    simp only [hcc]
    simp only [ne_eq, hnet1, not_false_iff, if_true, hvv]
  rw [hres]
  refine ⟨?_, ?_, ?_, ?_, ?_, ?_⟩
  · rw [hv3, hc1]
  · exact hv2
  · exact hv1
  · intro p hp
    have hpev : REvent.rmC (p.2 : Process).id ∈ cevs := by
      rw [hc4, h0c]
      exact List.mem_map_of_mem _ hp
    simp [hpev]
  · rw [← hst1net]
    simp
  · intro v hv
    have hvev : REvent.rmVol (v.2 : String) ∈ vevs := by
      rw [hv4, hc3, h0v]
      exact List.mem_map_of_mem _ hv
    simp [hvev]

/-- C8 witness: a store with one container, the network `net-1` and one
volume, against an engine on which every teardown call fails — all three maps
are cleared and all removals were attempted. -/
theorem c8_witness :
    (clean engineAllFail allRunningStore).1.containers = [] ∧
    (clean engineAllFail allRunningStore).1.networkID = "" ∧
    (clean engineAllFail allRunningStore).1.volumes = [] ∧
    (∀ p ∈ allRunningStore.containers,
      REvent.rmC (p.2 : Process).id ∈ (clean engineAllFail allRunningStore).2) ∧
    REvent.rmNet allRunningStore.networkID ∈ (clean engineAllFail allRunningStore).2 ∧
    (∀ v ∈ allRunningStore.volumes,
      REvent.rmVol (v.2 : String) ∈ (clean engineAllFail allRunningStore).2) :=
  c8_clean_total engineAllFail allRunningStore (by decide)

/-! ## C1 -/

set_option maxHeartbeats 2000000 in
theorem allStepsOk_true : allStepsOk = true := by rfl

theorem stepOkB_true (s : LState) : stepOkB s = true := by
  obtain ⟨bF, dA, mpc, bpc, sp, aR, dnA, dnB, reg, stA, stB⟩ := s
  have hB : ∀ b : Bool, b ∈ allB := by intro b; cases b <;> simp [allB]
  have hD : ∀ d : Drv, d ∈ allDrv := by intro d; cases d <;> simp [allDrv]
  have hM : ∀ m : MainPC, m ∈ allM := by intro m; cases m <;> simp [allM]
  have hT : ∀ t : TaskPC, t ∈ allT := by intro t; cases t <;> simp [allT]
  have h0 := allStepsOk_true
  unfold allStepsOk at h0
  have h1 := List.all_eq_true.mp h0 bF (hB bF)
  have h2 := List.all_eq_true.mp h1 dA (hD dA)
  have h3 := List.all_eq_true.mp h2 mpc (hM mpc)
  have h4 := List.all_eq_true.mp h3 bpc (hT bpc)
  have h5 := List.all_eq_true.mp h4 sp (hB sp)
  have h6 := List.all_eq_true.mp h5 aR (hB aR)
  have h7 := List.all_eq_true.mp h6 dnA (hB dnA)
  have h8 := List.all_eq_true.mp h7 dnB (hB dnB)
  have h9 := List.all_eq_true.mp h8 reg (hB reg)
  have h10 := List.all_eq_true.mp h9 stA (hB stA)
  exact List.all_eq_true.mp h10 stB (hB stB)

theorem lstep_inv (s : LState) (c : Sched) (h : invB s = true) :
    invB (lstep s c) = true := by
  have hall := stepOkB_true s
  unfold stepOkB at hall
  rw [h] at hall
  simp only [Bool.not_true, Bool.false_or, Bool.and_eq_true] at hall
  cases c with
  | m => exact hall.1
  | b => exact hall.2

theorem lrun_inv (l : List Sched) : ∀ s : LState, invB s = true → invB (lrun s l) = true := by
  induction l with
  | nil => intro s h; exact h
  | cons c rest ih => intro s h; exact ih (lstep s c) (lstep_inv s c h)

theorem linit_inv (bF : Bool) (dA : Drv) : invB (linit bF dA) = true := by
  cases bF <;> cases dA <;> rfl

theorem inv_startedB (s : LState) (h : invB s = true) (hs : s.startedB = true) :
    s.bpc = .tEnd := by
  unfold invB at h
  simp only [Bool.and_eq_true, Bool.or_eq_true, Bool.not_eq_true'] at h
  obtain ⟨⟨⟨⟨⟨⟨i1, i2⟩, i3⟩, i4⟩, i5⟩, i6⟩, i7⟩ := h
  rcases i4 with h4 | h4
  · rw [hs] at h4
    cases h4
  · revert h4
    cases s.bpc <;> simp [isTEnd]

theorem inv_t3_reg (s : LState) (h : invB s = true) (ht : s.bpc = .tEnd)
    (hr : s.bRegistered = true) : s.doneA = true := by
  unfold invB at h
  simp only [Bool.and_eq_true, Bool.or_eq_true, Bool.not_eq_true'] at h
  obtain ⟨⟨⟨⟨⟨⟨i1, i2⟩, i3⟩, i4⟩, i5⟩, i6⟩, i7⟩ := h
  rcases i5 with h5 | h5
  · rw [Bool.and_eq_false_iff] at h5
    rcases h5 with h5 | h5
    · rw [ht] at h5
      simp [isT3plus] at h5
    · rw [hr] at h5
      cases h5
  · exact h5

theorem inv_t3_exec (s : LState) (h : invB s = true) (ht : s.bpc = .tEnd)
    (hd : s.drvA = .execp) : s.doneA = true := by
  unfold invB at h
  simp only [Bool.and_eq_true, Bool.or_eq_true, Bool.not_eq_true'] at h
  obtain ⟨⟨⟨⟨⟨⟨i1, i2⟩, i3⟩, i4⟩, i5⟩, i6⟩, i7⟩ := h
  rcases i6 with h6 | h6
  · rw [Bool.and_eq_false_iff] at h6
    rcases h6 with h6 | h6
    · rw [ht] at h6
      simp [isT3plus] at h6
    · rw [hd] at h6
      simp [isExecDrv] at h6
  · exact h6

/-- C1 counterexample: with iteration order B-first and `A` a container
service, the schedule `createProcess(B); spawn B; createProcess(A); B checks
IsServiceRunning(A); B emits Done(B); B runs its launch action` is a valid
interleaving in which B's launch action has run while the coordinator has not
observed the `A started` notification and A's launch has not begun — because
`createProcess(A)` already recorded A as RUNNING in the store, B skipped its
wait entirely. -/
theorem c1_counterexample :
    (lrun (linit true .docker) [.m, .m, .m, .b, .b, .b]).startedB = true ∧
    (lrun (linit true .docker) [.m, .m, .m, .b, .b, .b]).doneB = true ∧
    (lrun (linit true .docker) [.m, .m, .m, .b, .b, .b]).bRegistered = false ∧
    (lrun (linit true .docker) [.m, .m, .m, .b, .b, .b]).doneA = false ∧
    (lrun (linit true .docker) [.m, .m, .m, .b, .b, .b]).startedA = false := by
  decide

/-- C1 amended: under every interleaving and either iteration order, if B's
task actually registered a wait with the coordinator, then B's launch action
runs only after the coordinator has observed the `A started` notification
(which `invokeStart` emits before calling A's start function); the same
unconditional guarantee holds whenever A is an exec-driver service, whose
store record only becomes RUNNING inside its launch action.  The claim's
unconditional form fails for container-driver dependencies because
`createProcess` records a fresh container as RUNNING before its launch
begins, letting B skip the wait (see the counterexample). -/
theorem c1_amended (bF : Bool) (dA : Drv) (l : List Sched) :
    ((lrun (linit bF dA) l).bRegistered = true →
      (lrun (linit bF dA) l).startedB = true → (lrun (linit bF dA) l).doneA = true) ∧
    ((lrun (linit bF dA) l).drvA = .execp →
      (lrun (linit bF dA) l).startedB = true → (lrun (linit bF dA) l).doneA = true) := by
  have hinv := lrun_inv l (linit bF dA) (linit_inv bF dA)
  constructor
  · intro hreg hstB
    exact inv_t3_reg _ hinv (inv_startedB _ hinv hstB) hreg
  · intro hdA hstB
    exact inv_t3_exec _ hinv (inv_startedB _ hinv hstB) hdA

/-- C1 witness: the amended theorem applied to two concrete traces — one where
B registers a wait on a container-driver A and launches only after Done(A),
and one with an exec-driver A. -/
theorem c1_witness :
    (lrun (linit true .docker) [.m, .m, .b, .b, .m, .m, .b, .b, .m]).doneA = true ∧
    (lrun (linit true .execp) [.m, .m, .b, .b, .m, .m, .b, .b, .m]).doneA = true :=
  ⟨(c1_amended true .docker [.m, .m, .b, .b, .m, .m, .b, .b, .m]).1 (by decide) (by decide),
   (c1_amended true .execp [.m, .m, .b, .b, .m, .m, .b, .b, .m]).2 (by decide) (by decide)⟩

end Gompose
